import Mathlib

/-!
Verification of the git-lfs transfer-queue batch client (`tq/api.go`) and the
git reference helpers, as a shallow embedding in Lean 4.

The embedding models:
- the wire types `batchRequest` / `batchResponse` with their JSON field tags
  (`operation`, `objects`, `transfers,omitempty`),
- the `tqClient.Batch` method, with the HTTP transport abstracted into an
  `Env` value describing what `NewRequest`, `DoWithAuth` and `DecodeJSON`
  return on this call,
- the batch splitting, deduplication and report invariants of the transfer
  queue (modelled from the spec, their code being outside the given sources),
- the git reference helpers `CurrentRef` / `RecentBranches` (modelled from
  the spec and their tests, their code being outside the given sources).
-/

namespace tq

/-- A JSON value, used to model the serialized body of a wire request. -/
inductive Json where
  | str : String → Json
  | num : Nat → Json
  | arr : List Json → Json
  | obj : List (String × Json) → Json
deriving Repr

/-- One transferable object as it appears on the wire: `{oid, size}`
(the fields of `api.ObjectResource` that the batch request serializes,
per the spec's wire format). -/
structure ObjectResource where
  Oid : String
  Size : Nat
deriving DecidableEq, Repr

/-- Embeds `batchRequest` from `tq/api.go`: operation, objects, and the
`transfers,omitempty` adapter-name list. A Go nil slice is modelled as `[]`. -/
structure batchRequest where
  Operation : String
  Objects : List ObjectResource
  TransferAdapterNames : List String
deriving DecidableEq, Repr

/-- Embeds `batchResponse` from `tq/api.go`. -/
structure batchResponse where
  TransferAdapterName : String
  Objects : List ObjectResource
deriving DecidableEq, Repr

/-- The zero value `&batchResponse{}` allocated at the start of `Batch`. -/
def batchResponse.zero : batchResponse := ⟨"", []⟩

/-- JSON serialization of one object: `{"oid": ..., "size": ...}`. -/
def ObjectResource.toJson (o : ObjectResource) : Json :=
  Json.obj [("oid", Json.str o.Oid), ("size", Json.num o.Size)]

/-- JSON serialization of `batchRequest` following its Go struct tags:
`operation` and `objects` always present, `transfers` omitted when the
slice is empty (`omitempty`; Go omits both nil and empty slices). -/
def batchRequest.toJson (r : batchRequest) : Json :=
  Json.obj ([("operation", Json.str r.Operation),
             ("objects", Json.arr (r.Objects.map ObjectResource.toJson))] ++
    (if r.TransferAdapterNames.isEmpty then []
     else [("transfers", Json.arr (r.TransferAdapterNames.map Json.str))]))

/-- The field list of a serialized JSON object body. -/
def Json.objFields : Json → List (String × Json)
  | Json.obj fs => fs
  | _ => []

/-- An HTTP request as built by `c.NewRequest("POST", e, "objects/batch", bReq)`:
method, resolved endpoint, relative path and serialized JSON body. -/
structure Request where
  method : String
  endpoint : String
  path : String
  body : Json
deriving Repr

/-- Abstracts what the transport layer does with the issued request:
`DoWithAuth` fails, or a response with a status code arrives, in which
case `decoded` is the content of `bRes` after `lfsapi.DecodeJSON` ran
(only consulted on status 200) and `decodeErr` is `DecodeJSON`'s error. -/
inductive WireResult where
  | doErr : String → WireResult
  | res (statusCode : Nat) (decodeErr : Option String) (decoded : batchResponse) : WireResult

/-- The environment of one `Batch` call: the endpoint resolver
(`c.Endpoints.Endpoint(operation, remote)`), whether `c.NewRequest` fails,
and the transport outcome. -/
structure Env where
  endpointOf : String → String → String
  newRequestErr : Option String
  wire : WireResult

/-- The observable outcome of `Batch`: the three return values
(`*batchResponse`, `*http.Response` modelled by its status code, `error`),
the state of the caller's `bReq` after the call (the method mutates it
through the pointer), and the wire requests issued. -/
structure BatchOutcome where
  bRes : Option batchResponse
  status : Option Nat
  err : Option String
  reqAfter : batchRequest
  issued : List Request

/-- Embeds the normalization in `Batch`:
`if len(bReq.TransferAdapterNames) == 1 && bReq.TransferAdapterNames[0] == "basic"
\x7b bReq.TransferAdapterNames = nil \x7d`. -/
def normalizeBasicHint (bReq : batchRequest) : batchRequest :=
  if bReq.TransferAdapterNames.length = 1 ∧ bReq.TransferAdapterNames.head? = some "basic" then
    { bReq with TransferAdapterNames := [] }
  else bReq

/-- Embeds `(c *tqClient) Batch(remote string, bReq *batchRequest)` from
`tq/api.go` line by line: empty-objects fast path; `"basic"` singleton
normalization; endpoint resolution; `NewRequest` (its failure wrapped as
"batch request"); `DoWithAuth` (its failure wrapped as "batch response");
the `StatusCode != 200` check; and finally `DecodeJSON` into `bRes`,
whose (possibly partial) content is returned together with the decode error. -/
def Batch (env : Env) (remote : String) (bReq : batchRequest) : BatchOutcome :=
  if bReq.Objects.length = 0 then
    { bRes := some batchResponse.zero, status := none, err := none,
      reqAfter := bReq, issued := [] }
  else
    let bReq1 := normalizeBasicHint bReq
    let e := env.endpointOf bReq1.Operation remote
    match env.newRequestErr with
    | some msg =>
      { bRes := none, status := none, err := some ("batch request: " ++ msg),
        reqAfter := bReq1, issued := [] }
    | none =>
      let req : Request := ⟨"POST", e, "objects/batch", bReq1.toJson⟩
      match env.wire with
      | WireResult.doErr msg =>
        { bRes := none, status := none, err := some ("batch response: " ++ msg),
          reqAfter := bReq1, issued := [req] }
      | WireResult.res status decodeErr decoded =>
        if status ≠ 200 then
          { bRes := none, status := some status,
            err := some ("Invalid status for POST " ++ e ++ "/objects/batch: " ++
              toString status),
            reqAfter := bReq1, issued := [req] }
        else
          { bRes := some decoded, status := some status, err := decodeErr,
            reqAfter := bReq1, issued := [req] }

/-- A concrete environment: `NewRequest` succeeds, the server answers 200
and the body decodes cleanly. -/
def envOk : Env :=
  ⟨fun _ r => "https://example.com/" ++ r ++ ".git/info/lfs", none,
   WireResult.res 200 none ⟨"basic", [⟨"a0", 3⟩]⟩⟩

/-- A concrete environment answering status 204 (2xx class but not 200). -/
def env204 : Env :=
  ⟨fun _ r => "https://example.com/" ++ r ++ ".git/info/lfs", none,
   WireResult.res 204 none batchResponse.zero⟩

/-- A concrete non-empty batch request with no adapter hint. -/
def bReqC : batchRequest := ⟨"download", [⟨"abc123", 12⟩], []⟩

/-- A concrete environment in which `NewRequest` fails. -/
def envReqErr : Env :=
  ⟨fun _ r => "https://example.com/" ++ r ++ ".git/info/lfs", some "bad url",
   WireResult.res 200 none batchResponse.zero⟩

/-- A concrete environment in which `DoWithAuth` fails. -/
def envDoErr : Env :=
  ⟨fun _ r => "https://example.com/" ++ r ++ ".git/info/lfs", none,
   WireResult.doErr "connection reset"⟩

/-- A concrete non-empty request whose adapter hint is exactly ["basic"]. -/
def bReqBasic : batchRequest := ⟨"download", [⟨"abc123", 12⟩], ["basic"]⟩

/-- A concrete non-empty request offering several adapters, "basic" among them. -/
def bReqMulti : batchRequest := ⟨"upload", [⟨"abc123", 12⟩], ["tus", "basic"]⟩

theorem normalizeBasicHint_Operation (bReq : batchRequest) :
    (normalizeBasicHint bReq).Operation = bReq.Operation := by
  unfold normalizeBasicHint; split <;> rfl

theorem normalizeBasicHint_Objects (bReq : batchRequest) :
    (normalizeBasicHint bReq).Objects = bReq.Objects := by
  unfold normalizeBasicHint; split <;> rfl

theorem normalizeBasicHint_of_basic (bReq : batchRequest)
    (h : bReq.TransferAdapterNames = ["basic"]) :
    normalizeBasicHint bReq = { bReq with TransferAdapterNames := [] } := by
  simp [normalizeBasicHint, h]

theorem not_basic_singleton (ns : List String)
    (h : 2 ≤ ns.length ∨ (ns.length = 1 ∧ ns ≠ ["basic"])) :
    ¬(ns.length = 1 ∧ ns.head? = some "basic") := by
  rintro ⟨h1, h2⟩
  rcases ns with _ | ⟨a, _ | ⟨b, t⟩⟩
  · simp at h1
  · simp at h2
    subst h2
    rcases h with h | ⟨_, h⟩
    · simp at h
    · exact h rfl
  · simp at h1

theorem normalizeBasicHint_eq_self (bReq : batchRequest)
    (h : ¬(bReq.TransferAdapterNames.length = 1 ∧
           bReq.TransferAdapterNames.head? = some "basic")) :
    normalizeBasicHint bReq = bReq := by
  simp [normalizeBasicHint, h]

/-- The request built by `NewRequest` in the non-fast-path branches. -/
def builtRequest (env : Env) (remote : String) (bReq : batchRequest) : Request :=
  ⟨"POST", env.endpointOf (normalizeBasicHint bReq).Operation remote, "objects/batch",
   (normalizeBasicHint bReq).toJson⟩

theorem Batch_eq_of_reqErr (env : Env) (remote : String) (bReq : batchRequest)
    (hne : bReq.Objects ≠ []) (msg : String) (h : env.newRequestErr = some msg) :
    Batch env remote bReq =
      { bRes := none, status := none, err := some ("batch request: " ++ msg),
        reqAfter := normalizeBasicHint bReq, issued := [] } := by
  have h0 : ¬ bReq.Objects.length = 0 := by simpa [List.length_eq_zero] using hne
  simp [Batch, h0, h]

theorem Batch_eq_of_doErr (env : Env) (remote : String) (bReq : batchRequest)
    (hne : bReq.Objects ≠ []) (msg : String)
    (hok : env.newRequestErr = none) (hw : env.wire = WireResult.doErr msg) :
    Batch env remote bReq =
      { bRes := none, status := none, err := some ("batch response: " ++ msg),
        reqAfter := normalizeBasicHint bReq,
        issued := [builtRequest env remote bReq] } := by
  have h0 : ¬ bReq.Objects.length = 0 := by simpa [List.length_eq_zero] using hne
  simp [Batch, h0, hok, hw, builtRequest]

theorem Batch_eq_of_bad_status (env : Env) (remote : String) (bReq : batchRequest)
    (hne : bReq.Objects ≠ []) (status : Nat) (decodeErr : Option String)
    (decoded : batchResponse) (hok : env.newRequestErr = none)
    (hw : env.wire = WireResult.res status decodeErr decoded) (hs : status ≠ 200) :
    Batch env remote bReq =
      { bRes := none, status := some status,
        err := some ("Invalid status for POST " ++
          env.endpointOf (normalizeBasicHint bReq).Operation remote ++
          "/objects/batch: " ++ toString status),
        reqAfter := normalizeBasicHint bReq,
        issued := [builtRequest env remote bReq] } := by
  have h0 : ¬ bReq.Objects.length = 0 := by simpa [List.length_eq_zero] using hne
  simp [Batch, h0, hok, hw, hs, builtRequest]

theorem Batch_eq_of_status_200 (env : Env) (remote : String) (bReq : batchRequest)
    (hne : bReq.Objects ≠ []) (decodeErr : Option String)
    (decoded : batchResponse) (hok : env.newRequestErr = none)
    (hw : env.wire = WireResult.res 200 decodeErr decoded) :
    Batch env remote bReq =
      { bRes := some decoded, status := some 200, err := decodeErr,
        reqAfter := normalizeBasicHint bReq,
        issued := [builtRequest env remote bReq] } := by
  have h0 : ¬ bReq.Objects.length = 0 := by simpa [List.length_eq_zero] using hne
  simp [Batch, h0, hok, hw, builtRequest]

/-- Claim C2: for every batch request whose object list is empty, `Batch`
returns the empty batch response and a nil error without issuing any wire
request (and with a nil http response). -/
theorem Batch_empty_fast_path (env : Env) (remote : String) (bReq : batchRequest)
    (h : bReq.Objects = []) :
    (Batch env remote bReq).bRes = some batchResponse.zero ∧
    (Batch env remote bReq).err = none ∧
    (Batch env remote bReq).status = none ∧
    (Batch env remote bReq).issued = [] := by
  simp [Batch, h]

/-- Witness for C2 at a concrete empty request. -/
theorem Batch_empty_fast_path_witness :
    (Batch envOk "origin" ⟨"download", [], ["basic"]⟩).bRes = some batchResponse.zero ∧
    (Batch envOk "origin" ⟨"download", [], ["basic"]⟩).err = none ∧
    (Batch envOk "origin" ⟨"download", [], ["basic"]⟩).status = none ∧
    (Batch envOk "origin" ⟨"download", [], ["basic"]⟩).issued = [] :=
  Batch_empty_fast_path envOk "origin" ⟨"download", [], ["basic"]⟩ rfl

/-- Claim C3: when the adapter-name list is exactly ["basic"], every wire
request `Batch` issues has a serialized body with no "transfers" field. -/
theorem Batch_basic_hint_omits_transfers (env : Env) (remote : String)
    (bReq : batchRequest) (h : bReq.TransferAdapterNames = ["basic"]) :
    ∀ r ∈ (Batch env remote bReq).issued,
      ∀ v, ("transfers", v) ∉ r.body.objFields := by
  intro r hr v hv
  by_cases hne : bReq.Objects = []
  · rcases Batch_empty_fast_path env remote bReq hne with ⟨-, -, -, h4⟩
    rw [h4] at hr
    simp at hr
  · have hbody : r.body = (normalizeBasicHint bReq).toJson := by
      cases hok : env.newRequestErr with
      | some msg =>
        rw [Batch_eq_of_reqErr env remote bReq hne msg hok] at hr
        simp at hr
      | none =>
        cases hw : env.wire with
        | doErr msg =>
          rw [Batch_eq_of_doErr env remote bReq hne msg hok hw] at hr
          simp at hr
          rw [hr]
          rfl
        | res status decodeErr decoded =>
          by_cases hs : status = 200
          · subst hs
            rw [Batch_eq_of_status_200 env remote bReq hne decodeErr decoded hok hw] at hr
            simp at hr
            rw [hr]
            rfl
          · rw [Batch_eq_of_bad_status env remote bReq hne status decodeErr
                decoded hok hw hs] at hr
            simp at hr
            rw [hr]
            rfl
    rw [hbody, normalizeBasicHint_of_basic bReq h] at hv
    simp [batchRequest.toJson, Json.objFields] at hv

/-- Witness for C3 at a concrete request with the ["basic"] hint. -/
theorem Batch_basic_hint_omits_transfers_witness :
    bReqBasic.TransferAdapterNames = ["basic"] ∧
    ∀ r ∈ (Batch envOk "origin" bReqBasic).issued,
      ∀ v, ("transfers", v) ∉ r.body.objFields :=
  ⟨rfl, Batch_basic_hint_omits_transfers envOk "origin" bReqBasic rfl⟩

/-- Claim C9: when `Batch` fails on a non-200 status it returns a nil
batch response together with the (non-nil) http response carrying that
status and a non-nil error; when request construction (`NewRequest`) or
the transport call (`DoWithAuth`) fails, it returns nil for both the
batch response and the http response along with a non-nil error. -/
theorem Batch_failure_return_values (env : Env) (remote : String)
    (bReq : batchRequest) (hne : bReq.Objects ≠ []) :
    (∀ status decodeErr decoded, env.newRequestErr = none →
      env.wire = WireResult.res status decodeErr decoded → status ≠ 200 →
      (Batch env remote bReq).bRes = none ∧
      (Batch env remote bReq).status = some status ∧
      (Batch env remote bReq).err ≠ none) ∧
    (∀ msg, env.newRequestErr = some msg →
      (Batch env remote bReq).bRes = none ∧
      (Batch env remote bReq).status = none ∧
      (Batch env remote bReq).err ≠ none) ∧
    (∀ msg, env.newRequestErr = none → env.wire = WireResult.doErr msg →
      (Batch env remote bReq).bRes = none ∧
      (Batch env remote bReq).status = none ∧
      (Batch env remote bReq).err ≠ none) := by
  refine ⟨?_, ?_, ?_⟩
  · intro status decodeErr decoded hok hw hs
    rw [Batch_eq_of_bad_status env remote bReq hne status decodeErr decoded hok hw hs]
    simp
  · intro msg h
    rw [Batch_eq_of_reqErr env remote bReq hne msg h]
    simp
  · intro msg hok hw
    rw [Batch_eq_of_doErr env remote bReq hne msg hok hw]
    simp

/-- Witness for C9 at three concrete environments: status 204, a failing
`NewRequest`, and a failing `DoWithAuth`. -/
theorem Batch_failure_return_values_witness :
    ((Batch env204 "origin" bReqC).bRes = none ∧
     (Batch env204 "origin" bReqC).status = some 204 ∧
     (Batch env204 "origin" bReqC).err ≠ none) ∧
    ((Batch envReqErr "origin" bReqC).bRes = none ∧
     (Batch envReqErr "origin" bReqC).status = none ∧
     (Batch envReqErr "origin" bReqC).err ≠ none) ∧
    ((Batch envDoErr "origin" bReqC).bRes = none ∧
     (Batch envDoErr "origin" bReqC).status = none ∧
     (Batch envDoErr "origin" bReqC).err ≠ none) :=
  ⟨(Batch_failure_return_values env204 "origin" bReqC (by decide)).1
      204 none batchResponse.zero rfl rfl (by decide),
   (Batch_failure_return_values envReqErr "origin" bReqC (by decide)).2.1
      "bad url" rfl,
   (Batch_failure_return_values envDoErr "origin" bReqC (by decide)).2.2
      "connection reset" rfl rfl⟩

/-- Claim C10: the default-adapter normalization applies only to the exact
singleton ["basic"]: with two or more adapter names, or a single name
different from "basic", every issued wire request serializes the transfers
field verbatim (the name "basic" included when it appears among others). -/
theorem Batch_verbatim_adapters (env : Env) (remote : String) (bReq : batchRequest)
    (h : 2 ≤ bReq.TransferAdapterNames.length ∨
         (bReq.TransferAdapterNames.length = 1 ∧
          bReq.TransferAdapterNames ≠ ["basic"])) :
    ∀ r ∈ (Batch env remote bReq).issued,
      r.body.objFields.lookup "transfers" =
        some (Json.arr (bReq.TransferAdapterNames.map Json.str)) := by
  intro r hr
  have hnorm : normalizeBasicHint bReq = bReq :=
    normalizeBasicHint_eq_self bReq (not_basic_singleton _ h)
  have hemp : bReq.TransferAdapterNames.isEmpty = false := by
    cases hts : bReq.TransferAdapterNames with
    | nil =>
      rw [hts] at h
      rcases h with h | ⟨h, -⟩ <;> simp at h
    | cons a t => rfl
  by_cases hne : bReq.Objects = []
  · rcases Batch_empty_fast_path env remote bReq hne with ⟨-, -, -, h4⟩
    rw [h4] at hr
    simp at hr
  · have hbody : r.body = (normalizeBasicHint bReq).toJson := by
      cases hok : env.newRequestErr with
      | some msg =>
        rw [Batch_eq_of_reqErr env remote bReq hne msg hok] at hr
        simp at hr
      | none =>
        cases hw : env.wire with
        | doErr msg =>
          rw [Batch_eq_of_doErr env remote bReq hne msg hok hw] at hr
          simp at hr
          rw [hr]
          rfl
        | res status decodeErr decoded =>
          by_cases hs : status = 200
          · subst hs
            rw [Batch_eq_of_status_200 env remote bReq hne decodeErr decoded hok hw] at hr
            simp at hr
            rw [hr]
            rfl
          · rw [Batch_eq_of_bad_status env remote bReq hne status decodeErr
                decoded hok hw hs] at hr
            simp at hr
            rw [hr]
            rfl
    rw [hbody, hnorm]
    simp [batchRequest.toJson, Json.objFields, hemp, List.lookup]

/-- Witness for C10 at a concrete request offering ["tus", "basic"]. -/
theorem Batch_verbatim_adapters_witness :
    2 ≤ bReqMulti.TransferAdapterNames.length ∧
    ∀ r ∈ (Batch envOk "origin" bReqMulti).issued,
      r.body.objFields.lookup "transfers" =
        some (Json.arr (bReqMulti.TransferAdapterNames.map Json.str)) :=
  ⟨by decide, Batch_verbatim_adapters envOk "origin" bReqMulti (Or.inl (by decide))⟩

/-- Counterexample to C1 as stated: a non-empty batch whose request
reaches the remote and draws a 2xx-class status (204) still yields a
non-nil error from `Batch`, because the code compares the status against
200 exactly, not against the 2xx class. -/
theorem Batch_status_2xx_counterexample :
    bReqC.Objects ≠ [] ∧
    env204.wire = WireResult.res 204 none batchResponse.zero ∧
    (Batch env204 "origin" bReqC).status = some 204 ∧
    (200 ≤ 204 ∧ 204 < 300) ∧
    (Batch env204 "origin" bReqC).err ≠ none := by
  refine ⟨by decide, rfl, ?_, by decide, ?_⟩ <;> decide

theorem Batch_reqAfter_eq (env : Env) (remote : String) (bReq : batchRequest)
    (hne : bReq.Objects ≠ []) :
    (Batch env remote bReq).reqAfter = normalizeBasicHint bReq := by
  cases hok : env.newRequestErr with
  | some msg => rw [Batch_eq_of_reqErr env remote bReq hne msg hok]
  | none =>
    cases hw : env.wire with
    | doErr msg => rw [Batch_eq_of_doErr env remote bReq hne msg hok hw]
    | res status decodeErr decoded =>
      by_cases hs : status = 200
      · subst hs
        rw [Batch_eq_of_status_200 env remote bReq hne decodeErr decoded hok hw]
      · rw [Batch_eq_of_bad_status env remote bReq hne status decodeErr decoded hok hw hs]

/-- Claim C6: every non-empty batch request whose `NewRequest` succeeds
issues exactly one POST to "objects/batch" under the endpoint resolved
for the request's operation and remote, whose JSON body holds exactly the
fields operation (the direction string), objects (the object list) and
transfers (the request's adapter-name list at serialization time, omitted
when that list is empty). -/
theorem Batch_wire_request_shape (env : Env) (remote : String) (bReq : batchRequest)
    (hne : bReq.Objects ≠ []) (hok : env.newRequestErr = none) :
    (Batch env remote bReq).issued =
      [⟨"POST", env.endpointOf bReq.Operation remote, "objects/batch",
        Json.obj ([("operation", Json.str bReq.Operation),
                   ("objects", Json.arr (bReq.Objects.map ObjectResource.toJson))] ++
          (if (Batch env remote bReq).reqAfter.TransferAdapterNames.isEmpty then []
           else [("transfers",
             Json.arr ((Batch env remote bReq).reqAfter.TransferAdapterNames.map
               Json.str))]))⟩] := by
  have hN := normalizeBasicHint_Operation bReq
  have hO := normalizeBasicHint_Objects bReq
  rw [Batch_reqAfter_eq env remote bReq hne]
  cases hw : env.wire with
  | doErr msg =>
    rw [Batch_eq_of_doErr env remote bReq hne msg hok hw]
    simp [builtRequest, batchRequest.toJson, hN, hO]
  | res status decodeErr decoded =>
    by_cases hs : status = 200
    · subst hs
      rw [Batch_eq_of_status_200 env remote bReq hne decodeErr decoded hok hw]
      simp [builtRequest, batchRequest.toJson, hN, hO]
    · rw [Batch_eq_of_bad_status env remote bReq hne status decodeErr decoded hok hw hs]
      simp [builtRequest, batchRequest.toJson, hN, hO]

/-- Witness for C6 at a concrete request and environment. -/
theorem Batch_wire_request_shape_witness :
    (Batch envOk "origin" bReqC).issued =
      [⟨"POST", envOk.endpointOf bReqC.Operation "origin", "objects/batch",
        Json.obj ([("operation", Json.str bReqC.Operation),
                   ("objects", Json.arr (bReqC.Objects.map ObjectResource.toJson))] ++
          (if (Batch envOk "origin" bReqC).reqAfter.TransferAdapterNames.isEmpty then []
           else [("transfers",
             Json.arr ((Batch envOk "origin" bReqC).reqAfter.TransferAdapterNames.map
               Json.str))]))⟩] :=
  Batch_wire_request_shape envOk "origin" bReqC (by decide) rfl

/-- Counterexample to C8 as stated: with an empty object list the fast
path returns before the normalization runs, so the caller's ["basic"]
hint is left in place rather than set to nil. -/
theorem Batch_mutation_counterexample :
    (⟨"download", [], ["basic"]⟩ : batchRequest).TransferAdapterNames = ["basic"] ∧
    (Batch envOk "origin"
      ⟨"download", [], ["basic"]⟩).reqAfter.TransferAdapterNames = ["basic"] := by
  exact ⟨rfl, rfl⟩

/-- Claim C8 (amended): for every batch request with a non-empty object
list whose adapter-name list is exactly ["basic"], after `Batch` returns
the caller's request has TransferAdapterNames set to nil, with Operation
and Objects unchanged. (With an empty object list the fast path leaves the
request untouched.) -/
theorem Batch_mutates_basic_hint (env : Env) (remote : String) (bReq : batchRequest)
    (hne : bReq.Objects ≠ []) (h : bReq.TransferAdapterNames = ["basic"]) :
    (Batch env remote bReq).reqAfter =
      { Operation := bReq.Operation, Objects := bReq.Objects,
        TransferAdapterNames := [] } := by
  rw [Batch_reqAfter_eq env remote bReq hne, normalizeBasicHint_of_basic bReq h]

/-- Witness for the amended C8 at a concrete request. -/
theorem Batch_mutates_basic_hint_witness :
    (Batch envOk "origin" bReqBasic).reqAfter =
      { Operation := bReqBasic.Operation, Objects := bReqBasic.Objects,
        TransferAdapterNames := [] } :=
  Batch_mutates_basic_hint envOk "origin" bReqBasic (by decide) rfl

/-- Modelled from the spec: the transfer queue's fixed object-count batch
limit. The queue code that splits submissions into batches is not among
the given sources (`Batch` only sends one already-formed batch); the spec
fixes only that the limit is a constant. -/
def batchSizeLimit : Nat := 100

/-- Modelled from the spec: splitting a submission into consecutive
batches of at most `batchSizeLimit` objects, preserving input order. -/
def splitIntoBatches : List ObjectResource → List (List ObjectResource)
  | [] => []
  | x :: rest =>
    (x :: rest.take (batchSizeLimit - 1)) ::
      splitIntoBatches (rest.drop (batchSizeLimit - 1))
termination_by objs => objs.length
decreasing_by
  simp only [List.length_drop, List.length_cons]
  omega

/-- Modelled from the spec: one wire request is formed per batch, all with
the run's operation and adapter hint. -/
def batchRequestsFor (operation : String) (adapters : List String)
    (objs : List ObjectResource) : List batchRequest :=
  (splitIntoBatches objs).map (fun b => ⟨operation, b, adapters⟩)

theorem splitIntoBatches_flatten :
    ∀ objs : List ObjectResource, (splitIntoBatches objs).flatten = objs
  | [] => by rw [splitIntoBatches]; rfl
  | x :: rest => by
    have ih := splitIntoBatches_flatten (rest.drop (batchSizeLimit - 1))
    rw [splitIntoBatches]
    simp [ih, List.take_append_drop]
termination_by objs => objs.length
decreasing_by
  simp only [List.length_drop, List.length_cons]
  omega

theorem splitIntoBatches_le :
    ∀ objs : List ObjectResource, ∀ b ∈ splitIntoBatches objs,
      b.length ≤ batchSizeLimit
  | [] => by rw [splitIntoBatches]; intro b hb; simp at hb
  | x :: rest => by
    intro b hb
    rw [splitIntoBatches] at hb
    rcases List.mem_cons.mp hb with h | h
    · subst h
      simp only [List.length_cons, List.length_take, batchSizeLimit]
      omega
    · exact splitIntoBatches_le (rest.drop (batchSizeLimit - 1)) b h
termination_by objs => objs.length
decreasing_by
  simp only [List.length_drop, List.length_cons]
  omega

/-- Claim C4 (spec-modelled): the batch client splits the submitted list
into batches of at most the fixed object-count limit, issues one wire
request per batch, and preserves input order — concatenating the
per-request object lists in request order gives back the submission, so
no single wire request carries more objects than the limit. -/
theorem batch_splitting_spec (operation : String) (adapters : List String)
    (objs : List ObjectResource) :
    (∀ r ∈ batchRequestsFor operation adapters objs,
        r.Objects.length ≤ batchSizeLimit) ∧
    ((batchRequestsFor operation adapters objs).map batchRequest.Objects).flatten
      = objs ∧
    (batchRequestsFor operation adapters objs).length =
      (splitIntoBatches objs).length := by
  refine ⟨?_, ?_, by simp [batchRequestsFor]⟩
  · intro r hr
    rcases List.mem_map.mp hr with ⟨b, hb, rfl⟩
    exact splitIntoBatches_le objs b hb
  · have hmap : (batchRequestsFor operation adapters objs).map batchRequest.Objects
        = splitIntoBatches objs := by
      rw [batchRequestsFor, List.map_map]
      exact List.map_id (splitIntoBatches objs)
    rw [hmap, splitIntoBatches_flatten]

/-- A concrete two-object submission. -/
def objsW : List ObjectResource := [⟨"a1", 1⟩, ⟨"a2", 2⟩]

/-- Witness for C4 at a concrete submission. -/
theorem batch_splitting_spec_witness :
    (∀ r ∈ batchRequestsFor "download" ["basic"] objsW,
        r.Objects.length ≤ batchSizeLimit) ∧
    ((batchRequestsFor "download" ["basic"] objsW).map batchRequest.Objects).flatten
      = objsW ∧
    (batchRequestsFor "download" ["basic"] objsW).length =
      (splitIntoBatches objsW).length :=
  batch_splitting_spec "download" ["basic"] objsW

/-- One transferable unit as submitted to the queue (spec data model):
content hash (oid) and byte size. -/
structure ObjectDescriptor where
  Oid : String
  Size : Nat
deriving DecidableEq, Repr

/-- The terminal outcome classes of one object (spec data model and error
taxonomy). -/
inductive Outcome where
  | success : Outcome
  | negotiationError : Outcome
  | transferError : Outcome
deriving DecidableEq, Repr

/-- Terminal per-object record in the final Report (spec data model). -/
structure Result where
  Oid : String
  outcome : Outcome
deriving DecidableEq, Repr

/-- Modelled from the spec: duplicate hashes in one submission are
deduplicated before negotiation (first occurrence kept); `seen` carries
the hashes already taken. The queue orchestration code is not among the
given sources. -/
def dedupeByOidAux (seen : List String) :
    List ObjectDescriptor → List ObjectDescriptor
  | [] => []
  | o :: rest =>
    if o.Oid ∈ seen then dedupeByOidAux seen rest
    else o :: dedupeByOidAux (o.Oid :: seen) rest

/-- Modelled from the spec: the submission after hash deduplication. -/
def dedupeByOid (objs : List ObjectDescriptor) : List ObjectDescriptor :=
  dedupeByOidAux [] objs

/-- Modelled from the spec: the queue's terminal aggregation — each
deduplicated object receives exactly one terminal Result, whose outcome
class (success, negotiation error or transfer error) is decided by the
run's execution, abstracted here as `outcomeOf`. -/
def runQueue (outcomeOf : ObjectDescriptor → Outcome)
    (objs : List ObjectDescriptor) : List Result :=
  (dedupeByOid objs).map (fun o => ⟨o.Oid, outcomeOf o⟩)

theorem dedupeByOidAux_filter_of_seen (x : String) :
    ∀ (seen : List String) (objs : List ObjectDescriptor), x ∈ seen →
      (dedupeByOidAux seen objs).filter (fun o => o.Oid == x) = []
  | _, [], _ => rfl
  | seen, o :: rest, hx => by
    rw [dedupeByOidAux]
    split
    · exact dedupeByOidAux_filter_of_seen x seen rest hx
    · rename_i hmem
      have hne : (o.Oid == x) = false := by
        simp only [beq_eq_false_iff_ne]
        intro he
        exact hmem (he ▸ hx)
      rw [List.filter_cons, hne]
      simp only [Bool.false_eq_true, if_false]
      exact dedupeByOidAux_filter_of_seen x (o.Oid :: seen) rest
        (List.mem_cons_of_mem _ hx)

theorem dedupeByOidAux_filter_length (x : String) :
    ∀ (seen : List String) (objs : List ObjectDescriptor), x ∉ seen →
      ((dedupeByOidAux seen objs).filter (fun o => o.Oid == x)).length =
        if x ∈ objs.map ObjectDescriptor.Oid then 1 else 0
  | _, [], _ => by simp [dedupeByOidAux]
  | seen, o :: rest, hx => by
    rw [dedupeByOidAux]
    split
    · rename_i hmem
      have hxo : x ≠ o.Oid := fun he => hx (he ▸ hmem)
      rw [dedupeByOidAux_filter_length x seen rest hx]
      simp [List.mem_cons, hxo]
    · rename_i hmem
      by_cases hxo : x = o.Oid
      · have hhd : (o.Oid == x) = true := by simp [hxo]
        rw [List.filter_cons, hhd]
        simp only [if_true, List.length_cons]
        have htail : (dedupeByOidAux (o.Oid :: seen) rest).filter
            (fun p => p.Oid == x) = [] :=
          dedupeByOidAux_filter_of_seen x (o.Oid :: seen) rest
            (hxo ▸ List.mem_cons_self o.Oid seen)
        rw [htail]
        simp [hxo]
      · have hhd : (o.Oid == x) = false := by
          simp only [beq_eq_false_iff_ne]
          exact fun he => hxo he.symm
        rw [List.filter_cons, hhd]
        simp only [Bool.false_eq_true, if_false]
        have hx2 : x ∉ o.Oid :: seen := by
          intro hc
          rcases List.mem_cons.mp hc with hc | hc
          · exact hxo hc
          · exact hx hc
        rw [dedupeByOidAux_filter_length x (o.Oid :: seen) rest hx2]
        simp [List.mem_cons, hxo]

/-- Claim C5 (spec-modelled): every submitted ObjectDescriptor has exactly
one Result for its hash in the final Report — never zero, never more —
whatever outcome class each object draws, and the Report length equals the
deduplicated input length. -/
theorem runQueue_exactly_one_result (outcomeOf : ObjectDescriptor → Outcome)
    (objs : List ObjectDescriptor) :
    (∀ o ∈ objs,
      ((runQueue outcomeOf objs).filter (fun r => r.Oid == o.Oid)).length = 1) ∧
    (runQueue outcomeOf objs).length = (dedupeByOid objs).length := by
  constructor
  · intro o ho
    have hmap : (runQueue outcomeOf objs).filter (fun r => r.Oid == o.Oid) =
        ((dedupeByOid objs).filter (fun p => p.Oid == o.Oid)).map
          (fun p => (⟨p.Oid, outcomeOf p⟩ : Result)) := by
      unfold runQueue
      rw [List.filter_map]
      rfl
    rw [hmap, List.length_map]
    have := dedupeByOidAux_filter_length o.Oid [] objs (by simp)
    rw [dedupeByOid, this]
    simp [List.mem_map]
    exact ⟨o, ho, rfl⟩
  · simp [runQueue]

/-- A concrete submission with a duplicated hash. -/
def objsDup : List ObjectDescriptor := [⟨"h1", 1⟩, ⟨"h2", 2⟩, ⟨"h1", 1⟩]

/-- Witness for C5 at a concrete submission with a duplicate. -/
theorem runQueue_exactly_one_result_witness :
    (∀ o ∈ objsDup,
      ((runQueue (fun _ => Outcome.success) objsDup).filter
        (fun r => r.Oid == o.Oid)).length = 1) ∧
    (runQueue (fun _ => Outcome.success) objsDup).length =
      (dedupeByOid objsDup).length :=
  runQueue_exactly_one_result (fun _ => Outcome.success) objsDup

/-- Modelled from the spec: the queue's handling of one negotiated batch —
the queue orchestration code is not among the given sources. When the
`Batch` call for this batch fails, every object of the batch receives a
Result with a negotiation error; otherwise each object's outcome is
decided by the rest of the run, abstracted as `outcomeOf`. -/
def negotiateBatch (outcomeOf : ObjectResource → Outcome) (env : Env)
    (remote : String) (bReq : batchRequest) : List Result :=
  match (Batch env remote bReq).err with
  | some _ => bReq.Objects.map (fun o => ⟨o.Oid, Outcome.negotiationError⟩)
  | none => bReq.Objects.map (fun o => ⟨o.Oid, outcomeOf o⟩)

/-- Modelled from the spec: a run negotiates its batches independently,
one `Batch` call per batch, each call with its own transport outcome. -/
def runNegotiation (outcomeOf : ObjectResource → Outcome) (remote : String)
    (batches : List (Env × batchRequest)) : List (List Result) :=
  batches.map (fun p => negotiateBatch outcomeOf p.1 remote p.2)

/-- Claim C1 (amended): for every batch request with a non-empty object
list that reaches the remote, the `Batch` call returns a non-nil error
iff the HTTP status of the batch response is not exactly 200 (or, with
status 200, decoding the response body fails); on such a non-200 status
every object of that batch is failed with a negotiation error and no
decoded batch response is produced, while other batches — negotiated by
their own `Batch` calls — are unaffected: a batch's results depend only
on its own request and transport outcome. -/
theorem Batch_error_iff_not_200 (outcomeOf : ObjectResource → Outcome)
    (env : Env) (remote : String) (bReq : batchRequest)
    (hne : bReq.Objects ≠ []) (status : Nat) (decodeErr : Option String)
    (decoded : batchResponse) (hok : env.newRequestErr = none)
    (hw : env.wire = WireResult.res status decodeErr decoded) :
    ((Batch env remote bReq).err ≠ none ↔ (status ≠ 200 ∨ decodeErr ≠ none)) ∧
    (status ≠ 200 →
      (Batch env remote bReq).bRes = none ∧
      (Batch env remote bReq).status = some status ∧
      negotiateBatch outcomeOf env remote bReq =
        bReq.Objects.map (fun o => ⟨o.Oid, Outcome.negotiationError⟩)) ∧
    (∀ batches batches2 : List (Env × batchRequest), ∀ j : Nat,
      batches[j]? = batches2[j]? →
      (runNegotiation outcomeOf remote batches)[j]? =
        (runNegotiation outcomeOf remote batches2)[j]?) := by
  refine ⟨?_, ?_, ?_⟩
  · by_cases hs : status = 200
    · subst hs
      rw [Batch_eq_of_status_200 env remote bReq hne decodeErr decoded hok hw]
      simp
    · rw [Batch_eq_of_bad_status env remote bReq hne status decodeErr decoded hok hw hs]
      simp [hs]
  · intro hs
    refine ⟨?_, ?_, ?_⟩
    · rw [Batch_eq_of_bad_status env remote bReq hne status decodeErr decoded hok hw hs]
    · rw [Batch_eq_of_bad_status env remote bReq hne status decodeErr decoded hok hw hs]
    · unfold negotiateBatch
      rw [Batch_eq_of_bad_status env remote bReq hne status decodeErr decoded hok hw hs]
  · intro batches batches2 j h
    simp only [runNegotiation, List.getElem?_map, h]

/-- Witness for the amended C1 at the concrete 204 environment. -/
theorem Batch_error_iff_not_200_witness :
    ((Batch env204 "origin" bReqC).err ≠ none ↔
      (204 ≠ 200 ∨ (none : Option String) ≠ none)) ∧
    (204 ≠ 200 →
      (Batch env204 "origin" bReqC).bRes = none ∧
      (Batch env204 "origin" bReqC).status = some 204 ∧
      negotiateBatch (fun _ => Outcome.success) env204 "origin" bReqC =
        bReqC.Objects.map (fun o => ⟨o.Oid, Outcome.negotiationError⟩)) ∧
    (∀ batches batches2 : List (Env × batchRequest), ∀ j : Nat,
      batches[j]? = batches2[j]? →
      (runNegotiation (fun _ => Outcome.success) "origin" batches)[j]? =
        (runNegotiation (fun _ => Outcome.success) "origin" batches2)[j]?) :=
  Batch_error_iff_not_200 (fun _ => Outcome.success) env204 "origin" bReqC
    (by decide) 204 none batchResponse.zero rfl rfl

end tq

namespace git

/-- Reference kinds, from the tests: `RefTypeLocalBranch` and
`RefTypeRemoteBranch`. -/
inductive RefType where
  | localBranch
  | remoteBranch
deriving DecidableEq, Repr

/-- A git reference as the tests build it, `Ref{Name, Type, Sha}` (the Go
field `Type` is spelled `Typ`, `Type` being reserved in Lean). -/
structure Ref where
  Name : String
  Typ : RefType
  Sha : String
deriving DecidableEq, Repr

/-- A commit: id and commit date. -/
structure Commit where
  Sha : String
  CommitDate : Int
deriving DecidableEq, Repr

/-- A local branch with its tip commit. -/
structure Branch where
  Name : String
  Tip : Commit
deriving DecidableEq, Repr

/-- A remote-tracking branch with its remote, name and tip commit. -/
structure RemoteBranch where
  Remote : String
  Name : String
  Tip : Commit
deriving DecidableEq, Repr

/-- The repository state the ref helpers consult: local branches, remote
branches, and the currently checked-out branch (HEAD). -/
structure Repo where
  branches : List Branch
  remoteBranches : List RemoteBranch
  currentBranch : String
deriving DecidableEq, Repr

/-- Modelled from the spec: `CurrentReference()` — the git ref-resolution
code is not among the given sources (only its tests are). Returns the
checked-out branch's name, local-branch type and tip commit id, or an
error when HEAD does not resolve (as in the empty-repository test). -/
def CurrentRef (repo : Repo) : Except String Ref :=
  match repo.branches.find? (fun b => b.Name == repo.currentBranch) with
  | some b => Except.ok ⟨b.Name, RefType.localBranch, b.Tip.Sha⟩
  | none => Except.error "Git cannot resolve ref: HEAD"

/-- Modelled from the spec and tests: local-branch refs whose tip commit
is newer than `since`. -/
def localRefs (repo : Repo) (since : Int) : List Ref :=
  (repo.branches.filter (fun b => decide (since < b.Tip.CommitDate))).map
    (fun b => ⟨b.Name, RefType.localBranch, b.Tip.Sha⟩)

/-- Modelled from the spec and tests: remote-branch refs whose tip commit
is newer than `since`, restricted to `remoteFilter` when it is non-empty,
named `remote/branch`. -/
def remoteRefs (repo : Repo) (since : Int) (remoteFilter : String) : List Ref :=
  (repo.remoteBranches.filter (fun rb =>
      decide (since < rb.Tip.CommitDate) &&
      (remoteFilter == "" || rb.Remote == remoteFilter))).map
    (fun rb => ⟨rb.Remote ++ "/" ++ rb.Name, RefType.remoteBranch, rb.Tip.Sha⟩)

/-- Modelled from the spec: `RecentBranches(since, includeRemotes,
remoteFilter)` — local refs always, remote refs only when asked. -/
def RecentBranches (repo : Repo) (since : Int) (includeRemotes : Bool)
    (remoteFilter : String) : List Ref :=
  localRefs repo since ++
    (if includeRemotes then remoteRefs repo since remoteFilter else [])

theorem mem_localRefs (repo : Repo) (since : Int) (ref : Ref) :
    ref ∈ localRefs repo since ↔
      ∃ lb ∈ repo.branches, since < lb.Tip.CommitDate ∧
        ref = ⟨lb.Name, RefType.localBranch, lb.Tip.Sha⟩ := by
  simp only [localRefs, List.mem_map, List.mem_filter, decide_eq_true_iff]
  constructor
  · rintro ⟨lb, ⟨hmem, hdate⟩, rfl⟩
    exact ⟨lb, hmem, hdate, rfl⟩
  · rintro ⟨lb, hmem, hdate, rfl⟩
    exact ⟨lb, ⟨hmem, hdate⟩, rfl⟩

theorem mem_remoteRefs (repo : Repo) (since : Int) (remoteFilter : String)
    (ref : Ref) :
    ref ∈ remoteRefs repo since remoteFilter ↔
      ∃ rb ∈ repo.remoteBranches, since < rb.Tip.CommitDate ∧
        (remoteFilter = "" ∨ rb.Remote = remoteFilter) ∧
        ref = ⟨rb.Remote ++ "/" ++ rb.Name, RefType.remoteBranch,
               rb.Tip.Sha⟩ := by
  simp only [remoteRefs, List.mem_map, List.mem_filter, Bool.and_eq_true,
    Bool.or_eq_true, decide_eq_true_iff, beq_iff_eq]
  constructor
  · rintro ⟨rb, ⟨hmem, hdate, hflt⟩, rfl⟩
    exact ⟨rb, hmem, hdate, hflt, rfl⟩
  · rintro ⟨rb, hmem, hdate, hflt, rfl⟩
    exact ⟨rb, ⟨hmem, hdate, hflt⟩, rfl⟩

/-- Claim C7 (spec-modelled): in a repository whose HEAD resolves to a
branch, `CurrentRef` returns the checked-out branch's name, local-branch
type and tip commit id with no error; and `RecentBranches` returns exactly
the branch refs whose tip commit is newer than `since`, with remote-branch
refs included only when `includeRemotes` is true and only those of the
named remote when `remoteFilter` is non-empty. -/
theorem currentRef_and_recentBranches (repo : Repo) (b : Branch)
    (hb : repo.branches.find? (fun x => x.Name == repo.currentBranch) = some b)
    (since : Int) (includeRemotes : Bool) (remoteFilter : String) :
    CurrentRef repo =
      Except.ok ⟨repo.currentBranch, RefType.localBranch, b.Tip.Sha⟩ ∧
    (∀ ref, ref ∈ RecentBranches repo since includeRemotes remoteFilter ↔
      ((∃ lb ∈ repo.branches, since < lb.Tip.CommitDate ∧
          ref = ⟨lb.Name, RefType.localBranch, lb.Tip.Sha⟩) ∨
       (includeRemotes = true ∧ ∃ rb ∈ repo.remoteBranches,
          since < rb.Tip.CommitDate ∧
          (remoteFilter = "" ∨ rb.Remote = remoteFilter) ∧
          ref = ⟨rb.Remote ++ "/" ++ rb.Name, RefType.remoteBranch,
                 rb.Tip.Sha⟩))) := by
  constructor
  · have hname : b.Name = repo.currentBranch := by
      have hp := List.find?_some hb
      simpa using hp
    have hcr : CurrentRef repo =
        Except.ok ⟨b.Name, RefType.localBranch, b.Tip.Sha⟩ := by
      unfold CurrentRef
      rw [hb]
    rw [hcr, hname]
  · intro ref
    cases includeRemotes with
    | false =>
      have hre : RecentBranches repo since false remoteFilter =
          localRefs repo since := by
        simp [RecentBranches]
      rw [hre, mem_localRefs]
      constructor
      · exact fun h => Or.inl h
      · rintro (h | ⟨h, -⟩)
        · exact h
        · simp at h
    | true =>
      have hre : RecentBranches repo since true remoteFilter =
          localRefs repo since ++ remoteRefs repo since remoteFilter := by
        simp [RecentBranches]
      rw [hre]
      simp only [List.mem_append, mem_localRefs, mem_remoteRefs,
        eq_self_iff_true, true_and]

/-- The repository state of the `TestRecentBranches` test, dates in days
relative to "now", with the final commit on master. -/
def testRepo : Repo :=
  { branches := [⟨"master", ⟨"sha5", 0⟩⟩,
                 ⟨"excluded_branch", ⟨"sha1", -15⟩⟩,
                 ⟨"included_branch", ⟨"sha3", -6⟩⟩,
                 ⟨"included_branch_2", ⟨"sha4", -3⟩⟩],
    remoteBranches := [⟨"origin", "master", ⟨"sha5", 0⟩⟩,
                       ⟨"origin", "excluded_branch", ⟨"sha1", -15⟩⟩,
                       ⟨"origin", "included_branch", ⟨"sha3", -6⟩⟩,
                       ⟨"upstream", "master", ⟨"sha5", 0⟩⟩,
                       ⟨"upstream", "included_branch_2", ⟨"sha4", -3⟩⟩],
    currentBranch := "master" }

/-- Witness for C7 at the test repository, with `since` seven days back,
remotes included and filtered to "origin". -/
theorem currentRef_and_recentBranches_witness :
    CurrentRef testRepo =
      Except.ok ⟨testRepo.currentBranch, RefType.localBranch, "sha5"⟩ ∧
    (∀ ref, ref ∈ RecentBranches testRepo (-7) true "origin" ↔
      ((∃ lb ∈ testRepo.branches, -7 < lb.Tip.CommitDate ∧
          ref = ⟨lb.Name, RefType.localBranch, lb.Tip.Sha⟩) ∨
       (true = true ∧ ∃ rb ∈ testRepo.remoteBranches,
          -7 < rb.Tip.CommitDate ∧
          ("origin" = "" ∨ rb.Remote = "origin") ∧
          ref = ⟨rb.Remote ++ "/" ++ rb.Name, RefType.remoteBranch,
                 rb.Tip.Sha⟩))) :=
  currentRef_and_recentBranches testRepo ⟨"master", ⟨"sha5", 0⟩⟩ rfl
    (-7) true "origin"

end git
